import Mathlib

/-!
Shallow embedding of the OTP backend in `main.py` (Flask + cachetools).

The program keeps two in-memory `TTLCache` stores:
  * `otp_cache`  : phone -> {hash, ts}, ttl = 300 s, maxsize = 10000
  * `rate_cache` : phone -> list of issuance timestamps, ttl = 3600 s, maxsize = 10000
and exposes two handlers, `send_otp` and `verify_otp`.

Modelling conventions:
  * Time is `Nat` (the source uses `int(time.time())`).  The two `time.time()`
    calls inside one request are modelled as a single instant `now`.
  * `cachetools.TTLCache` (an external library) is modelled as an
    insertion-ordered association list with distinct keys: `get` returns a
    value only while `now < insertedAt + ttl`; `set` first drops expired
    entries, then replaces the key, then evicts oldest entries when at
    `maxsize`, then appends the fresh entry; `pop` deletes the key.
  * `hashlib.sha256(...).hexdigest()` is kept abstract: every handler is
    parameterised over `hash_code : String -> String`; the claims depend only
    on equality of digests.
  * `secrets.randbelow(10**6)` is made explicit: `generate_otp` takes the
    drawn number as an argument.
  * The external Fast2SMS send capability is a parameter
    `sendCap : String -> String -> Except SendErr JVal`; `.error (.httpError ..)`
    models `requests.HTTPError`, `.error (.otherError ..)` any other exception.
  * Request bodies are JSON objects (or absent), modelled as association
    lists of scalar JSON values; `request.get_json() or {}` becomes
    `body.getD []`.  A Python `AttributeError` escaping the handler is
    modelled as `Except.error`.
  * Python `str.strip()` is modelled as dropping leading/trailing whitespace
    characters; `str.isdigit()` as `Char.isDigit` on every character.
  * Python's `now - t` on ints and Lean's `Nat` truncated subtraction agree
    on every comparison the source performs (`now - t <= 3600` and
    `now - t < 30` both hold whenever `t > now`, under either semantics).
-/

/-- Scalar JSON values, enough to express the request bodies and responses
the handlers build (`jsonify` payload fields). -/
inductive JVal where
  | jnull
  | jbool (b : Bool)
  | jnum (n : Int)
  | jstr (s : String)
deriving DecidableEq, Repr

/-- Python truthiness of an optional JSON field (`data.get(...)`):
`None`, `null`, `False`, `0` and `""` are falsy. -/
def truthy : Option JVal → Bool
  | none => false
  | some .jnull => false
  | some (.jbool b) => b
  | some (.jnum n) => !(n == 0)
  | some (.jstr s) => !(s == "")

/-- `data.get(key)` on the parsed JSON object. -/
def jget (data : List (String × JVal)) (key : String) : Option JVal :=
  (data.find? (fun p => p.1 == key)).map (·.2)

/-- An HTTP response: status code plus the `jsonify`-ed object. -/
structure Response where
  status : Nat
  fields : List (String × JVal)
deriving DecidableEq, Repr

/-- One entry of a `TTLCache`: key, stored value, insertion instant. -/
structure CEntry (α : Type) where
  key : String
  val : α
  insertedAt : Nat
deriving DecidableEq, Repr

/-- Model of `cachetools.TTLCache`: insertion-ordered entries (oldest first),
keys pairwise distinct, with a time-to-live and a capacity. -/
structure TTLCache (α : Type) where
  ttl : Nat
  maxsize : Nat
  items : List (CEntry α)
deriving DecidableEq, Repr

namespace TTLCache

/-- An entry is live at `now` while its age is strictly below the ttl;
it expires at `insertedAt + ttl`. -/
def live (c : TTLCache α) (now : Nat) (e : CEntry α) : Bool :=
  now < e.insertedAt + c.ttl

/-- `cache.get(k)`: the stored value, or `None` when absent or expired. -/
def get (c : TTLCache α) (now : Nat) (k : String) : Option α :=
  match c.items.find? (fun e => e.key == k) with
  | some e => if c.live now e then some e.val else none
  | none => none

/-- `cache.pop(k, None)`: delete the key (no effect when absent). -/
def pop (c : TTLCache α) (k : String) : TTLCache α :=
  { c with items := c.items.filter (fun e => !(e.key == k)) }

/-- Evict the oldest entries so that one more entry fits within `maxsize`. -/
def evictOld (kept : List (CEntry α)) (maxsize : Nat) : List (CEntry α) :=
  if kept.length ≥ maxsize then kept.drop (kept.length + 1 - maxsize) else kept

/-- `cache[k] = v`: expire stale entries, replace the key, evict the oldest
entries while at capacity, append the fresh entry (insertion time `now`). -/
def set (c : TTLCache α) (now : Nat) (k : String) (v : α) : TTLCache α :=
  { c with
    items :=
      evictOld ((c.items.filter (fun e => c.live now e)).filter (fun e => !(e.key == k)))
        c.maxsize ++ [⟨k, v, now⟩] }

end TTLCache

/-- What `otp_cache` stores per phone: `{"hash": ..., "ts": ...}`. -/
structure OtpEntry where
  hash : String
  ts : Nat
deriving DecidableEq, Repr

/-- The process-wide mutable state: the two caches. -/
structure ServerState where
  otp_cache : TTLCache OtpEntry
  rate_cache : TTLCache (List Nat)
deriving DecidableEq, Repr

/-- The state at interpreter start: both caches empty, with the ttl and
maxsize constants from `main.py` lines 21 and 23. -/
def initState : ServerState :=
  { otp_cache := { ttl := 300, maxsize := 10000, items := [] }
    rate_cache := { ttl := 3600, maxsize := 10000, items := [] } }

/-- Characters Python's default `str.strip()` removes (ASCII fragment). -/
def pyWhitespace (c : Char) : Bool :=
  c == ' ' || c == '\t' || c == '\n' || c == '\r'

/-- Drop leading and trailing whitespace from a character list. -/
def stripChars (l : List Char) : List Char :=
  (((l.dropWhile pyWhitespace).reverse).dropWhile pyWhitespace).reverse

/-- Python `phone.strip()`. -/
def pyStrip (s : String) : String := ⟨stripChars s.data⟩

/-- Python `s.startswith("+")`. -/
def startsWithPlus (s : String) : Bool := s.data.head? == some '+'

/-- Python `s.isdigit()` (ASCII digits; source inputs are phone numbers). -/
def pyIsDigit (s : String) : Bool := !s.data.isEmpty && s.data.all Char.isDigit

/-- Phone sanitization on the send path (`main.py` lines 78-85): strip,
keep strings that already start with `+`, prepend `+91` to bare
10-digit numbers. -/
def sanitize_phone_send (phone : String) : String :=
  if startsWithPlus (pyStrip phone) then pyStrip phone
  else if (pyStrip phone).length == 10 && pyIsDigit (pyStrip phone) then
    "+91" ++ pyStrip phone
  else pyStrip phone

/-- Phone sanitization on the verify path (`main.py` lines 120-122),
written as the source writes it (one combined condition). -/
def sanitize_phone_verify (phone : String) : String :=
  if !startsWithPlus (pyStrip phone) && (pyStrip phone).length == 10
      && pyIsDigit (pyStrip phone) then
    "+91" ++ pyStrip phone
  else pyStrip phone

/-- `generate_otp` (`main.py` line 27): format the drawn number
`rnd % 10^6` as a zero-padded 6-digit string. -/
def generate_otp (rnd : Nat) : String :=
  let s := toString (rnd % 1000000)
  ⟨List.replicate (6 - s.data.length) '0' ++ s.data⟩

/-- The rate-limit denial message for too-frequent requests. -/
def cooldownMsg : String := "Please wait 30 seconds before requesting another OTP."

/-- The rate-limit denial message for the hourly quota. -/
def quotaMsg : String := "Exceeded OTP request limit. Try again later."

/-- `can_send_otp` (`main.py` lines 52-68): returns the decision, the denial
message if any, and the updated rate cache. -/
def can_send_otp (now : Nat) (rc : TTLCache (List Nat)) (phone : String) :
    (Bool × Option String) × TTLCache (List Nat) :=
  match rc.get now phone with
  | none => ((true, none), rc.set now phone [now])
  | some entry =>
    if entry.isEmpty then ((true, none), rc.set now phone [now])
    else if !(entry.filter (fun t => now - t ≤ 3600)).isEmpty
        && now - (entry.filter (fun t => now - t ≤ 3600)).getLastD 0 < 30 then
      ((false, some cooldownMsg), rc)
    else if (entry.filter (fun t => now - t ≤ 3600)).length ≥ 5 then
      ((false, some quotaMsg), rc)
    else
      ((true, none), rc.set now phone (entry.filter (fun t => now - t ≤ 3600) ++ [now]))

/-- Outcomes of the external send capability that the handler catches:
`requests.HTTPError` (with `str(e)` and `e.response.text`) or any other
exception (with `str(e)`). -/
inductive SendErr where
  | httpError (detail : String) (respText : String)
  | otherError (detail : String)
deriving DecidableEq, Repr

/-- `POST /send-otp` (`main.py` lines 70-108).  `Except.error` models a
Python exception escaping the handler (e.g. `AttributeError` from calling
`.strip()` on a non-string). -/
def send_otp (hash_code : String → String)
    (sendCap : String → String → Except SendErr JVal)
    (now rnd : Nat) (st : ServerState)
    (body : Option (List (String × JVal))) :
    Except String (Response × ServerState) :=
  let data := body.getD []
  let phoneJ := jget data "phone"
  if !truthy phoneJ then
    .ok (⟨400, [("error", .jstr "Missing 'phone' in request")]⟩, st)
  else
    match phoneJ with
    | some (.jstr phone) =>
      let phone_sanitized := sanitize_phone_send phone
      match can_send_otp now st.rate_cache phone_sanitized with
      | ((ok, msg), rate') =>
        if !ok then
          .ok (⟨429, [("error", .jstr (msg.getD ""))]⟩, { st with rate_cache := rate' })
        else
          let otp := generate_otp rnd
          let hashed := hash_code otp
          let otp' := st.otp_cache.set now phone_sanitized ⟨hashed, now⟩
          let message := "Your FoodApp OTP is " ++ otp ++ ". It will expire in 5 minutes."
          match sendCap phone_sanitized message with
          | .ok resp =>
            .ok (⟨200, [("status", .jstr "sent"), ("provider_response", resp)]⟩,
                 { otp_cache := otp', rate_cache := rate' })
          | .error (.httpError detail respText) =>
            .ok (⟨502, [("error", .jstr "SMS provider error"), ("details", .jstr detail),
                        ("resp_text", .jstr respText)]⟩,
                 { otp_cache := otp'.pop phone_sanitized, rate_cache := rate' })
          | .error (.otherError detail) =>
            .ok (⟨500, [("error", .jstr "Internal error sending SMS"),
                        ("details", .jstr detail)]⟩,
                 { otp_cache := otp'.pop phone_sanitized, rate_cache := rate' })
    | _ => .error "AttributeError: object has no attribute strip"

/-- The 400 response for a missing/expired OTP record on the verify path. -/
def notFoundResp : Response :=
  ⟨400, [("valid", .jbool false), ("reason", .jstr "No OTP requested or OTP expired")]⟩

/-- The 200 response for a successful verification. -/
def validResp : Response := ⟨200, [("valid", .jbool true)]⟩

/-- The 400 response for a live record whose hash does not match. -/
def invalidResp : Response :=
  ⟨400, [("valid", .jbool false), ("reason", .jstr "Invalid OTP")]⟩

/-- `POST /verify-otp` (`main.py` lines 110-134). -/
def verify_otp (hash_code : String → String) (now : Nat) (st : ServerState)
    (body : Option (List (String × JVal))) :
    Except String (Response × ServerState) :=
  let data := body.getD []
  let phoneJ := jget data "phone"
  let codeJ := jget data "code"
  if !truthy phoneJ || !truthy codeJ then
    .ok (⟨400, [("error", .jstr "Missing 'phone' or 'code'")]⟩, st)
  else
    match phoneJ with
    | some (.jstr phone) =>
      let phone_sanitized := sanitize_phone_verify phone
      match st.otp_cache.get now phone_sanitized with
      | none => .ok (notFoundResp, st)
      | some entry =>
        match codeJ with
        | some (.jstr code) =>
          if hash_code code == entry.hash then
            .ok (validResp, { st with otp_cache := st.otp_cache.pop phone_sanitized })
          else
            .ok (invalidResp, st)
        | _ => .error "AttributeError: object has no attribute encode"
    | _ => .error "AttributeError: object has no attribute strip"

/-- The canonical body of a `/send-otp` request. -/
def sendBody (phone : String) : Option (List (String × JVal)) :=
  some [("phone", .jstr phone)]

/-- The canonical body of a `/verify-otp` request. -/
def verifyBody (phone code : String) : Option (List (String × JVal)) :=
  some [("phone", .jstr phone), ("code", .jstr code)]

/-- One request against the server, carrying its instant, the number drawn
for the OTP, and the outcome of the external send capability. -/
inductive Request where
  | send (now rnd : Nat) (capResult : Except SendErr JVal)
      (body : Option (List (String × JVal)))
  | verify (now : Nat) (body : Option (List (String × JVal)))

/-- The state a handler outcome leaves behind: the new state on a response,
the old one when a Python exception aborted the handler (no store mutation
happens before either raise site). -/
def extractState (r : Except String (Response × ServerState)) (d : ServerState) :
    ServerState :=
  match r with
  | .ok (_, st') => st'
  | .error _ => d

/-- Serve one request. -/
def stepReq (hash_code : String → String) (st : ServerState) (r : Request) :
    ServerState :=
  match r with
  | .send now rnd capResult body =>
    extractState (send_otp hash_code (fun _ _ => capResult) now rnd st body) st
  | .verify now body =>
    extractState (verify_otp hash_code now st body) st

/-- Serve a list of requests from the initial state. -/
def runReqs (hash_code : String → String) (reqs : List Request) : ServerState :=
  reqs.foldl (stepReq hash_code) initState

/-- A state the server can actually be in. -/
def Reachable (hash_code : String → String) (st : ServerState) : Prop :=
  ∃ reqs, runReqs hash_code reqs = st

/-- The rate limiter's verdict in the spec's vocabulary. -/
inductive RateDecision where
  | allowed (newHistory : List Nat)
  | denied (reason : String)
deriving DecidableEq, Repr

/-- Modelled from the spec: `tryAcquire` of §4.2, evaluated in the spec's
order — prune the history to the rolling window, deny with the cooldown
reason when the last timestamp is nearer than the minimum gap, deny with the
quota reason when the pruned history is full, otherwise append `now`. -/
def tryAcquire_spec (now : Nat) (history : List Nat) : RateDecision :=
  match (history.filter (fun t => now - t ≤ 3600)).getLast? with
  | some last =>
    if now - last < 30 then .denied cooldownMsg
    else if (history.filter (fun t => now - t ≤ 3600)).length ≥ 5 then .denied quotaMsg
    else .allowed (history.filter (fun t => now - t ≤ 3600) ++ [now])
  | none =>
    if (history.filter (fun t => now - t ≤ 3600)).length ≥ 5 then .denied quotaMsg
    else .allowed (history.filter (fun t => now - t ≤ 3600) ++ [now])

example : generate_otp 7 = "000007" := by decide
example : generate_otp 123456 = "123456" := by decide
example : sanitize_phone_send " 9876543210 " = "+919876543210" := by decide
example : sanitize_phone_verify "+919876543210" = "+919876543210" := by decide

/-! ### List and string helper lemmas -/

/-- `dropWhile` is the identity on a list whose head does not satisfy `p`. -/
theorem dropWhile_of_head_not {p : α → Bool} {l : List α}
    (h : ∀ c, l.head? = some c → p c = false) : l.dropWhile p = l := by
  cases l with
  | nil => rfl
  | cons a t => exact List.dropWhile_cons_of_neg (by simp [h a rfl])

/-- After `dropWhile p`, the head does not satisfy `p`. -/
theorem head_not_of_dropWhile {p : α → Bool} {l : List α} :
    ∀ c, (l.dropWhile p).head? = some c → p c = false := by
  intro c hc
  have h := List.head?_dropWhile_not p l
  rw [hc] at h
  exact h

/-- The head of a list is a member. -/
theorem mem_of_head? {l : List α} {c : α} (h : l.head? = some c) : c ∈ l := by
  cases l with
  | nil => simp at h
  | cons a t => simp_all

/-- `dropWhile` is a `drop`, hence removes an initial segment. -/
theorem dropWhile_eq_drop (p : α → Bool) (l : List α) :
    l.dropWhile p = l.drop (l.takeWhile p).length := by
  have h := List.takeWhile_append_dropWhile (p := p) (l := l)
  calc l.dropWhile p
      = (l.takeWhile p ++ l.dropWhile p).drop (l.takeWhile p).length :=
        (List.drop_left _ _).symm
    _ = l.drop (l.takeWhile p).length := by rw [h]

/-- The head of a `take` is the head of the list. -/
theorem head?_take_eq {l : List α} {n : Nat} {c : α}
    (h : (l.take n).head? = some c) : l.head? = some c := by
  cases n with
  | zero => simp at h
  | succ m => cases l with
    | nil => simp at h
    | cons a t => simpa using h

/-- `stripChars` is a `take` of the front-trimmed list. -/
theorem stripChars_eq_take (l : List Char) :
    ∃ j, stripChars l = (l.dropWhile pyWhitespace).take j := by
  unfold stripChars
  rw [dropWhile_eq_drop pyWhitespace (l.dropWhile pyWhitespace).reverse,
    List.drop_reverse, List.reverse_reverse]
  exact ⟨_, rfl⟩

/-- The trimmed list has no leading whitespace. -/
theorem stripChars_head_not (l : List Char) :
    ∀ c, (stripChars l).head? = some c → pyWhitespace c = false := by
  obtain ⟨j, hj⟩ := stripChars_eq_take l
  rw [hj]
  intro c hc
  exact head_not_of_dropWhile c (head?_take_eq hc)

/-- The reverse of a trimmed list is itself a `dropWhile`. -/
theorem stripChars_reverse_eq (l : List Char) :
    (stripChars l).reverse =
      ((l.dropWhile pyWhitespace).reverse).dropWhile pyWhitespace := by
  simp [stripChars]

/-- The reverse of the trimmed list has no leading whitespace. -/
theorem stripChars_reverse_head_not (l : List Char) :
    ∀ c, (stripChars l).reverse.head? = some c → pyWhitespace c = false := by
  rw [stripChars_reverse_eq]
  exact fun c hc => head_not_of_dropWhile c hc

/-- Stripping is idempotent. -/
theorem stripChars_idem (l : List Char) : stripChars (stripChars l) = stripChars l := by
  show (((stripChars l).dropWhile pyWhitespace).reverse.dropWhile pyWhitespace).reverse
      = stripChars l
  rw [dropWhile_of_head_not (stripChars_head_not l),
    dropWhile_of_head_not (stripChars_reverse_head_not l), List.reverse_reverse]

/-- Stripping a list with no whitespace at all is the identity. -/
theorem stripChars_of_no_ws {l : List Char}
    (h : ∀ c ∈ l, pyWhitespace c = false) : stripChars l = l := by
  unfold stripChars
  rw [dropWhile_of_head_not (fun c hc => h c (mem_of_head? hc)),
    dropWhile_of_head_not (fun c hc => h c (by
      have := mem_of_head? hc
      simpa using this)), List.reverse_reverse]

/-- Python `strip` is idempotent. -/
theorem pyStrip_idem (s : String) : pyStrip (pyStrip s) = pyStrip s := by
  simp [pyStrip, stripChars_idem]

/-- A digit character is not whitespace. -/
theorem not_ws_of_isDigit {c : Char} (h : c.isDigit = true) : pyWhitespace c = false := by
  rcases Decidable.eq_or_ne c ' ' with h1 | h1
  · subst h1; simp [Char.isDigit] at h
  rcases Decidable.eq_or_ne c '\t' with h2 | h2
  · subst h2; simp [Char.isDigit] at h
  rcases Decidable.eq_or_ne c '\n' with h3 | h3
  · subst h3; simp [Char.isDigit] at h
  rcases Decidable.eq_or_ne c '\r' with h4 | h4
  · subst h4; simp [Char.isDigit] at h
  simp [pyWhitespace, h1, h2, h3, h4]

/-! ### `TTLCache` lemmas -/

namespace TTLCache

variable {α : Type}

theorem ttl_set (c : TTLCache α) (now : Nat) (k : String) (v : α) :
    (c.set now k v).ttl = c.ttl := rfl

theorem ttl_pop (c : TTLCache α) (k : String) : (c.pop k).ttl = c.ttl := rfl

theorem maxsize_set (c : TTLCache α) (now : Nat) (k : String) (v : α) :
    (c.set now k v).maxsize = c.maxsize := rfl

theorem maxsize_pop (c : TTLCache α) (k : String) : (c.pop k).maxsize = c.maxsize := rfl

/-- The conditional eviction is a plain `drop` (dropping `0` is free). -/
theorem evictOld_eq_drop (kept : List (CEntry α)) (m : Nat) :
    evictOld kept m = kept.drop (kept.length + 1 - m) := by
  unfold evictOld
  split
  · rfl
  · next h =>
    have h0 : kept.length + 1 - m = 0 := by omega
    rw [h0, List.drop_zero]

/-- Entries surviving eviction are old entries. -/
theorem mem_evictOld {kept : List (CEntry α)} {m : Nat} {e : CEntry α}
    (h : e ∈ evictOld kept m) : e ∈ kept := by
  rw [evictOld_eq_drop] at h
  exact List.mem_of_mem_drop h

/-- Every entry of `set` is the fresh one or a surviving old entry with a
different key, live at `now`. -/
theorem mem_set_items {c : TTLCache α} {now : Nat} {k : String} {v : α}
    {e : CEntry α} (h : e ∈ (c.set now k v).items) :
    e = ⟨k, v, now⟩ ∨ (e ∈ c.items ∧ e.key ≠ k ∧ c.live now e = true) := by
  simp only [set, List.mem_append, List.mem_singleton] at h
  rcases h with h | h
  · right
    have h' := mem_evictOld h
    simp only [List.mem_filter, Bool.not_eq_true', beq_eq_false_iff_ne] at h'
    exact ⟨h'.1.1, h'.2, h'.1.2⟩
  · left; exact h

/-- No entry kept by `set` carries the written key. -/
theorem find?_evict_eq_none (c : TTLCache α) (now : Nat) (k : String) :
    (evictOld ((c.items.filter (fun e => c.live now e)).filter (fun e => !(e.key == k)))
        c.maxsize).find? (fun e => e.key == k) = none := by
  rw [List.find?_eq_none]
  intro x hx
  have hx' := mem_evictOld hx
  simp only [List.mem_filter, Bool.not_eq_true', beq_eq_false_iff_ne] at hx'
  simp [hx'.2]

/-- Reading back the key just written: the value is there while it is live. -/
theorem get_set_self (c : TTLCache α) (now now' : Nat) (k : String) (v : α) :
    (c.set now k v).get now' k =
      if now' < now + c.ttl then some v else none := by
  unfold get
  simp only [set, List.find?_append, find?_evict_eq_none, Option.none_or]
  simp [live, List.find?_cons]

/-- A popped key is gone at every instant. -/
theorem get_pop_self (c : TTLCache α) (now : Nat) (k : String) :
    (c.pop k).get now k = none := by
  unfold get pop
  have h : (c.items.filter (fun e => !(e.key == k))).find? (fun e => e.key == k) = none := by
    rw [List.find?_eq_none]
    intro x hx
    simp only [List.mem_filter, Bool.not_eq_true', beq_eq_false_iff_ne] at hx
    simp [hx.2]
  simp [h]

/-- `pop` only removes entries. -/
theorem mem_pop_items {c : TTLCache α} {k : String} {e : CEntry α}
    (h : e ∈ (c.pop k).items) : e ∈ c.items := by
  simpa [pop] using (List.mem_filter.mp h).1

/-- If no stored entry has the key, `get` misses. -/
theorem get_eq_none_of_no_key {c : TTLCache α} {now : Nat} {k : String}
    (h : ∀ e ∈ c.items, e.key ≠ k) : c.get now k = none := by
  unfold get
  have : c.items.find? (fun e => e.key == k) = none := by
    rw [List.find?_eq_none]
    intro x hx
    simp [h x hx]
  rw [this]

/-- If every stored entry with this key is already expired, `get` misses. -/
theorem get_eq_none_of_expired {c : TTLCache α} {now : Nat} {k : String}
    (h : ∀ e ∈ c.items, e.key = k → e.insertedAt + c.ttl ≤ now) :
    c.get now k = none := by
  unfold get
  cases hf : c.items.find? (fun e => e.key == k) with
  | none => rfl
  | some e =>
    have hmem := List.mem_of_find?_eq_some hf
    have hkey : e.key = k := by simpa using List.find?_some hf
    have := h e hmem hkey
    simp [live, Nat.not_lt_of_le this]

end TTLCache

/-! ### Phone sanitization lemmas -/

/-- Structure eta for strings. -/
theorem string_mk_data (s : String) : String.mk s.data = s := rfl

/-- Python `strip` at the string level is idempotent. -/
theorem pyStrip_data (s : String) : (pyStrip s).data = stripChars s.data := rfl

/-- A string of digits (with a possible `+91` in front) has no whitespace,
so `strip` leaves it alone. -/
theorem pyStrip_plus91_digits {t : String} (hd : t.data.all Char.isDigit = true) :
    pyStrip ("+91" ++ t) = "+91" ++ t := by
  have hall : ∀ c ∈ ("+91" ++ t).data, pyWhitespace c = false := by
    intro c hc
    rw [String.data_append] at hc
    rcases List.mem_append.mp hc with hc | hc
    · fin_cases hc <;> decide
    · exact not_ws_of_isDigit (List.all_eq_true.mp hd c hc)
  show String.mk (stripChars ("+91" ++ t).data) = "+91" ++ t
  rw [stripChars_of_no_ws hall, string_mk_data]

/-- `strip` leaves a pure digit string alone. -/
theorem pyStrip_digits {t : String} (hd : t.data.all Char.isDigit = true) :
    pyStrip t = t := by
  have hall : ∀ c ∈ t.data, pyWhitespace c = false :=
    fun c hc => not_ws_of_isDigit (List.all_eq_true.mp hd c hc)
  show String.mk (stripChars t.data) = t
  rw [stripChars_of_no_ws hall, string_mk_data]

/-- A `+91`-prefixed string starts with `+`. -/
theorem startsWithPlus_plus91 (t : String) : startsWithPlus ("+91" ++ t) = true := by
  simp [startsWithPlus]

/-- A pure digit string does not start with `+`. -/
theorem not_startsWithPlus_of_digits {t : String}
    (hd : t.data.all Char.isDigit = true) (hne : t.data ≠ []) :
    startsWithPlus t = false := by
  cases ht : t.data with
  | nil => exact absurd ht hne
  | cons a l =>
    have ha : a.isDigit = true := List.all_eq_true.mp hd a (by rw [ht]; exact List.mem_cons_self a l)
    have hap : a ≠ '+' := by
      intro h; subst h; simp [Char.isDigit] at ha
    simp [startsWithPlus, ht, hap]

/-- The two inline sanitizations in `main.py` (send path, lines 78-85, and
verify path, lines 120-122) compute the same function. -/
theorem sanitize_send_eq_verify (s : String) :
    sanitize_phone_send s = sanitize_phone_verify s := by
  unfold sanitize_phone_send sanitize_phone_verify
  by_cases hp : startsWithPlus (pyStrip s)
  · simp [hp]
  · simp only [Bool.not_eq_true] at hp
    simp [hp, Bool.and_assoc]

/-- Send-path sanitization is idempotent. -/
theorem sanitize_phone_send_idem (s : String) :
    sanitize_phone_send (sanitize_phone_send s) = sanitize_phone_send s := by
  by_cases hp : startsWithPlus (pyStrip s) = true
  · have h1 : sanitize_phone_send s = pyStrip s := by
      unfold sanitize_phone_send; rw [hp]; simp
    rw [h1]
    unfold sanitize_phone_send
    rw [pyStrip_idem, hp]
    simp
  · rw [Bool.not_eq_true] at hp
    by_cases hd : ((pyStrip s).length == 10 && pyIsDigit (pyStrip s)) = true
    · have hdig : (pyStrip s).data.all Char.isDigit = true := by
        have hand := (Bool.and_eq_true _ _).mp hd
        have h2 := hand.2
        unfold pyIsDigit at h2
        exact ((Bool.and_eq_true _ _).mp h2).2
      have h1 : sanitize_phone_send s = "+91" ++ pyStrip s := by
        unfold sanitize_phone_send; rw [hp, hd]; simp
      rw [h1]
      unfold sanitize_phone_send
      rw [pyStrip_plus91_digits hdig, startsWithPlus_plus91]
      simp
    · rw [Bool.not_eq_true] at hd
      have h1 : sanitize_phone_send s = pyStrip s := by
        unfold sanitize_phone_send; rw [hp, hd]; simp
      rw [h1]
      unfold sanitize_phone_send
      rw [pyStrip_idem, hp, hd]
      simp

/-- A bare 10-digit number and its `+91` form sanitize to the same key. -/
theorem sanitize_phone_send_bare_eq_plus91 {t : String}
    (h10 : t.length = 10) (hd : t.data.all Char.isDigit = true) :
    sanitize_phone_send t = "+91" ++ t ∧
      sanitize_phone_send ("+91" ++ t) = "+91" ++ t := by
  have hne : t.data ≠ [] := by
    intro h
    have : t.length = 0 := by simp [String.length, h]
    omega
  constructor
  · unfold sanitize_phone_send
    rw [pyStrip_digits hd, not_startsWithPlus_of_digits hd hne]
    have hcond : (t.length == 10 && pyIsDigit t) = true := by
      simp [h10, pyIsDigit, hd, hne]
    rw [hcond]
    simp
  · unfold sanitize_phone_send
    rw [pyStrip_plus91_digits hd, startsWithPlus_plus91]
    simp

/-- **C7** Phone normalization: the send-path and verify-path sanitizations
are the same function; that function is idempotent; and a bare 10-digit
number and its `+91`-prefixed form normalize to the identical key (hence
share OTP and rate-limit state, which is keyed by the sanitized phone). -/
theorem C7_phone_normalization (s t : String)
    (h10 : t.length = 10) (hd : t.data.all Char.isDigit = true) :
    sanitize_phone_send s = sanitize_phone_verify s ∧
    sanitize_phone_send (sanitize_phone_send s) = sanitize_phone_send s ∧
    sanitize_phone_send t = sanitize_phone_send ("+91" ++ t) := by
  refine ⟨sanitize_send_eq_verify s, sanitize_phone_send_idem s, ?_⟩
  obtain ⟨h1, h2⟩ := sanitize_phone_send_bare_eq_plus91 h10 hd
  rw [h1, h2]

/-- Witness for C7 at concrete inputs. -/
theorem C7_phone_normalization_witness :
    sanitize_phone_send " +9198765 " = sanitize_phone_verify " +9198765 " ∧
    sanitize_phone_send (sanitize_phone_send " +9198765 ") = sanitize_phone_send " +9198765 " ∧
    sanitize_phone_send "9876543210" = sanitize_phone_send ("+91" ++ "9876543210") :=
  C7_phone_normalization " +9198765 " "9876543210" (by decide) (by decide)

/-! ### Verify-path lemmas -/

theorem jget_verifyBody_phone (phone code : String) :
    jget [("phone", .jstr phone), ("code", .jstr code)] "phone" = some (.jstr phone) := by
  simp [jget]

theorem jget_verifyBody_code (phone code : String) :
    jget [("phone", .jstr phone), ("code", .jstr code)] "code" = some (.jstr code) := by
  simp [jget]

/-- `verify_otp` on a well-formed body, reduced to the three-way case split
of `main.py` lines 124-134. -/
theorem verify_otp_verifyBody (hc : String → String) (now : Nat) (st : ServerState)
    (phone code : String) (hφ : phone ≠ "") (hcd : code ≠ "") :
    verify_otp hc now st (verifyBody phone code) =
      match st.otp_cache.get now (sanitize_phone_verify phone) with
      | none => .ok (notFoundResp, st)
      | some entry =>
        if hc code == entry.hash then
          .ok (validResp,
            { st with otp_cache := st.otp_cache.pop (sanitize_phone_verify phone) })
        else .ok (invalidResp, st) := by
  unfold verify_otp verifyBody
  simp only [Option.getD_some, jget_verifyBody_phone, jget_verifyBody_code, truthy]
  have h1 : (phone == "") = false := by simpa using hφ
  have h2 : (code == "") = false := by simpa using hcd
  simp [h1, h2]

/-- **C1** Verify contract and one-shot consumption: with a live record
absent, `verify` answers not-found; with a live record whose stored digest
matches the candidate's digest, it deletes the record and answers valid (and
a second identical verification answers not-found); on digest mismatch it
answers invalid and leaves the whole state intact. -/
theorem C1_verify_contract (hc : String → String) (st : ServerState)
    (now now' : Nat) (phone code : String) (e : OtpEntry)
    (hφ : phone ≠ "") (hcd : code ≠ "") :
    (st.otp_cache.get now (sanitize_phone_verify phone) = none →
      verify_otp hc now st (verifyBody phone code) = .ok (notFoundResp, st)) ∧
    (st.otp_cache.get now (sanitize_phone_verify phone) = some e →
      hc code = e.hash →
      verify_otp hc now st (verifyBody phone code) =
        .ok (validResp,
          { st with otp_cache := st.otp_cache.pop (sanitize_phone_verify phone) }) ∧
      verify_otp hc now'
          { st with otp_cache := st.otp_cache.pop (sanitize_phone_verify phone) }
          (verifyBody phone code) =
        .ok (notFoundResp,
          { st with otp_cache := st.otp_cache.pop (sanitize_phone_verify phone) })) ∧
    (st.otp_cache.get now (sanitize_phone_verify phone) = some e →
      hc code ≠ e.hash →
      verify_otp hc now st (verifyBody phone code) = .ok (invalidResp, st)) := by
  refine ⟨?_, ?_, ?_⟩
  · intro hnone
    rw [verify_otp_verifyBody hc now st phone code hφ hcd, hnone]
  · intro hsome hmatch
    constructor
    · rw [verify_otp_verifyBody hc now st phone code hφ hcd, hsome]
      simp [hmatch]
    · rw [verify_otp_verifyBody hc now' _ phone code hφ hcd]
      rw [TTLCache.get_pop_self]
  · intro hsome hmatch
    rw [verify_otp_verifyBody hc now st phone code hφ hcd, hsome]
    have hm : (hc code == e.hash) = false := by simpa using hmatch
    simp [hm]

/-- A demo cache holding one live record for phone `+15551234`. -/
def demoOtpCache : TTLCache OtpEntry :=
  { ttl := 300, maxsize := 10000, items := [⟨"+15551234", ⟨"D1234", 0⟩, 0⟩] }

/-- A demo server state with that one record and an empty rate store. -/
def demoState : ServerState :=
  { otp_cache := demoOtpCache
    rate_cache := { ttl := 3600, maxsize := 10000, items := [] } }

/-- A demo digest function (prepend `D`), standing in for sha256. -/
def demoHash (s : String) : String := "D" ++ s

/-- Witness for C1: `demoState` holds one live record for `+15551234` with
digest `D1234`, checked against the code `1234` whose demo digest matches. -/
theorem C1_verify_contract_witness :
    (demoState.otp_cache.get 1 (sanitize_phone_verify "+15551234") = none →
      verify_otp demoHash 1 demoState (verifyBody "+15551234" "1234") =
        .ok (notFoundResp, demoState)) ∧
    (demoState.otp_cache.get 1 (sanitize_phone_verify "+15551234") =
        some ⟨"D1234", 0⟩ →
      demoHash "1234" = OtpEntry.hash ⟨"D1234", 0⟩ →
      verify_otp demoHash 1 demoState (verifyBody "+15551234" "1234") =
        .ok (validResp,
          { demoState with
            otp_cache := demoState.otp_cache.pop (sanitize_phone_verify "+15551234") }) ∧
      verify_otp demoHash 2
          { demoState with
            otp_cache := demoState.otp_cache.pop (sanitize_phone_verify "+15551234") }
          (verifyBody "+15551234" "1234") =
        .ok (notFoundResp,
          { demoState with
            otp_cache := demoState.otp_cache.pop (sanitize_phone_verify "+15551234") })) ∧
    (demoState.otp_cache.get 1 (sanitize_phone_verify "+15551234") =
        some ⟨"D1234", 0⟩ →
      demoHash "1234" ≠ OtpEntry.hash ⟨"D1234", 0⟩ →
      verify_otp demoHash 1 demoState (verifyBody "+15551234" "1234") =
        .ok (invalidResp, demoState)) :=
  C1_verify_contract demoHash demoState 1 2 "+15551234" "1234" ⟨"D1234", 0⟩
    (by decide) (by decide)

/-! ### Send-path lemmas -/

theorem jget_sendBody_phone (phone : String) :
    jget [("phone", .jstr phone)] "phone" = some (.jstr phone) := by
  simp [jget]

/-- The SMS text built around a drawn code. -/
def otpMessage (rnd : Nat) : String :=
  "Your FoodApp OTP is " ++ generate_otp rnd ++ ". It will expire in 5 minutes."

/-- `send_otp` on a well-formed body, reduced to the branch structure of
`main.py` lines 87-108. -/
theorem send_otp_sendBody (hc : String → String)
    (cap : String → String → Except SendErr JVal) (now rnd : Nat)
    (st : ServerState) (phone : String) (hφ : phone ≠ "") :
    send_otp hc cap now rnd st (sendBody phone) =
      match can_send_otp now st.rate_cache (sanitize_phone_send phone) with
      | ((ok, msg), rate') =>
        if !ok then
          .ok (⟨429, [("error", .jstr (msg.getD ""))]⟩, { st with rate_cache := rate' })
        else
          match cap (sanitize_phone_send phone) (otpMessage rnd) with
          | .ok resp =>
            .ok (⟨200, [("status", .jstr "sent"), ("provider_response", resp)]⟩,
                 { otp_cache := st.otp_cache.set now (sanitize_phone_send phone)
                     ⟨hc (generate_otp rnd), now⟩
                   rate_cache := rate' })
          | .error (.httpError detail respText) =>
            .ok (⟨502, [("error", .jstr "SMS provider error"), ("details", .jstr detail),
                        ("resp_text", .jstr respText)]⟩,
                 { otp_cache := (st.otp_cache.set now (sanitize_phone_send phone)
                     ⟨hc (generate_otp rnd), now⟩).pop (sanitize_phone_send phone)
                   rate_cache := rate' })
          | .error (.otherError detail) =>
            .ok (⟨500, [("error", .jstr "Internal error sending SMS"),
                        ("details", .jstr detail)]⟩,
                 { otp_cache := (st.otp_cache.set now (sanitize_phone_send phone)
                     ⟨hc (generate_otp rnd), now⟩).pop (sanitize_phone_send phone)
                   rate_cache := rate' }) := by
  unfold send_otp sendBody otpMessage
  simp only [Option.getD_some, jget_sendBody_phone, truthy]
  have h1 : (phone == "") = false := by simpa using hφ
  simp [h1]

/-- Inverting a successful (HTTP 200) send: the rate limiter allowed the
request, the OTP store now holds the fresh digest, and the rate cache is the
limiter's update. -/
theorem send_otp_200 {hc : String → String}
    {cap : String → String → Except SendErr JVal} {now rnd : Nat}
    {st st' : ServerState} {phone : String} {r : Response} (hφ : phone ≠ "")
    (h : send_otp hc cap now rnd st (sendBody phone) = .ok (r, st'))
    (hs : r.status = 200) :
    (can_send_otp now st.rate_cache (sanitize_phone_send phone)).1.1 = true ∧
    st'.otp_cache = st.otp_cache.set now (sanitize_phone_send phone)
        ⟨hc (generate_otp rnd), now⟩ ∧
    st'.rate_cache = (can_send_otp now st.rate_cache (sanitize_phone_send phone)).2 := by
  rw [send_otp_sendBody hc cap now rnd st phone hφ] at h
  rcases hcs : can_send_otp now st.rate_cache (sanitize_phone_send phone) with ⟨⟨ok, msg⟩, rate'⟩
  rw [hcs] at h
  cases ok with
  | false =>
    simp only [Bool.not_false, if_true] at h
    obtain ⟨hr, _⟩ := by simpa using h
    rw [← hr] at hs
    simp at hs
  | true =>
    simp only [Bool.not_true, Bool.false_eq_true, if_false] at h
    cases hcap : cap (sanitize_phone_send phone) (otpMessage rnd) with
    | ok resp =>
      rw [hcap] at h
      obtain ⟨_, hst⟩ := by simpa using h
      subst hst
      simp
    | error e =>
      rw [hcap] at h
      cases e with
      | httpError d rt =>
        obtain ⟨hr, _⟩ := by simpa using h
        rw [← hr] at hs
        simp at hs
      | otherError d =>
        obtain ⟨hr, _⟩ := by simpa using h
        rw [← hr] at hs
        simp at hs

/-- The error response the send handler builds for a failed send:
HTTP 502 on a provider `HTTPError`, HTTP 500 on any other exception. -/
def sendFailResp : SendErr → Response
  | .httpError detail respText =>
    ⟨502, [("error", .jstr "SMS provider error"), ("details", .jstr detail),
           ("resp_text", .jstr respText)]⟩
  | .otherError detail =>
    ⟨500, [("error", .jstr "Internal error sending SMS"), ("details", .jstr detail)]⟩

/-- The state after a rolled-back send: the freshly stored record popped
again, the rate limiter's bookkeeping kept. -/
def rollbackState (hc : String → String) (now rnd : Nat) (st : ServerState)
    (phone : String) : ServerState :=
  { otp_cache := (st.otp_cache.set now (sanitize_phone_send phone)
      ⟨hc (generate_otp rnd), now⟩).pop (sanitize_phone_send phone)
    rate_cache := (can_send_otp now st.rate_cache (sanitize_phone_send phone)).2 }

/-- **C2** Rollback on send failure: when the send capability fails (provider
HTTP error or any other exception), the handler answers 502/500 with the OTP
record it had just stored removed again, and any subsequent verification for
that phone — in particular with the code that would have been sent — answers
not-found, never valid. -/
theorem C2_rollback_on_send_failure (hc : String → String)
    (cap : String → String → Except SendErr JVal) (now rnd now' : Nat)
    (st : ServerState) (phone code : String) (err : SendErr)
    (hφ : phone ≠ "") (hcd : code ≠ "")
    (hallow : (can_send_otp now st.rate_cache (sanitize_phone_send phone)).1.1 = true)
    (hcap : cap (sanitize_phone_send phone) (otpMessage rnd) = .error err) :
    send_otp hc cap now rnd st (sendBody phone) =
      .ok (sendFailResp err, rollbackState hc now rnd st phone) ∧
    ((sendFailResp err).status = 502 ∨ (sendFailResp err).status = 500) ∧
    verify_otp hc now' (rollbackState hc now rnd st phone) (verifyBody phone code) =
      .ok (notFoundResp, rollbackState hc now rnd st phone) := by
  refine ⟨?_, ?_, ?_⟩
  · rw [send_otp_sendBody hc cap now rnd st phone hφ]
    rcases hcs : can_send_otp now st.rate_cache (sanitize_phone_send phone) with
      ⟨⟨ok, msg⟩, rate'⟩
    rw [hcs] at hallow
    cases ok with
    | false => simp at hallow
    | true =>
      simp only [Bool.not_true, Bool.false_eq_true, if_false]
      rw [hcap]
      cases err with
      | httpError d rt => simp [sendFailResp, rollbackState, hcs]
      | otherError d => simp [sendFailResp, rollbackState, hcs]
  · cases err with
    | httpError d rt => left; rfl
    | otherError d => right; rfl
  · rw [verify_otp_verifyBody hc now' _ phone code hφ hcd]
    have hk : sanitize_phone_verify phone = sanitize_phone_send phone :=
      (sanitize_send_eq_verify phone).symm
    rw [hk]
    show (match (rollbackState hc now rnd st phone).otp_cache.get now'
        (sanitize_phone_send phone) with
      | none => Except.ok (notFoundResp, rollbackState hc now rnd st phone)
      | some entry => _) = _
    rw [show (rollbackState hc now rnd st phone).otp_cache =
        (st.otp_cache.set now (sanitize_phone_send phone)
          ⟨hc (generate_otp rnd), now⟩).pop (sanitize_phone_send phone) from rfl]
    rw [TTLCache.get_pop_self]

/-- A send capability that always fails with a provider HTTP error. -/
def demoFailCap : String → String → Except SendErr JVal :=
  fun _ _ => .error (.httpError "boom" "gateway said no")

/-- Witness for C2: a fresh server, an allowed request for `+15551234`, and
the always-failing capability. -/
theorem C2_rollback_on_send_failure_witness :
    send_otp demoHash demoFailCap 5 42 initState (sendBody "+15551234") =
      .ok (sendFailResp (.httpError "boom" "gateway said no"),
        rollbackState demoHash 5 42 initState "+15551234") ∧
    ((sendFailResp (.httpError "boom" "gateway said no")).status = 502 ∨
      (sendFailResp (.httpError "boom" "gateway said no")).status = 500) ∧
    verify_otp demoHash 6 (rollbackState demoHash 5 42 initState "+15551234")
        (verifyBody "+15551234" "1234") =
      .ok (notFoundResp, rollbackState demoHash 5 42 initState "+15551234") :=
  C2_rollback_on_send_failure demoHash demoFailCap 5 42 6 initState "+15551234"
    "1234" (.httpError "boom" "gateway said no") (by decide) (by decide)
    (by rfl) (by rfl)

/-- A generated OTP string is never empty. -/
theorem generate_otp_ne_empty (rnd : Nat) : generate_otp rnd ≠ "" := by
  unfold generate_otp
  intro h
  have hd := congrArg String.data h
  simp only [] at hd
  rcases List.append_eq_nil.mp hd with ⟨h1, h2⟩
  rw [h2] at h1
  simp at h1

/-- **C3** Single active OTP: after two successful issuances for the same
phone, the store holds exactly the second digest; verifying the first code
answers invalid (record present, hash differs) and leaves the state intact,
while verifying the second code answers valid and consumes the record. -/
theorem C3_single_active_otp (hc : String → String)
    (cap1 cap2 : String → String → Except SendErr JVal)
    (now1 now2 now3 rnd1 rnd2 : Nat) (st0 st1 st2 : ServerState)
    (r1 r2 : Response) (phone : String)
    (hφ : phone ≠ "") (httl : st0.otp_cache.ttl = 300)
    (h1 : send_otp hc cap1 now1 rnd1 st0 (sendBody phone) = .ok (r1, st1))
    (hs1 : r1.status = 200)
    (h2 : send_otp hc cap2 now2 rnd2 st1 (sendBody phone) = .ok (r2, st2))
    (hs2 : r2.status = 200)
    (hneq : hc (generate_otp rnd1) ≠ hc (generate_otp rnd2))
    (hlive : now3 < now2 + 300) :
    st2.otp_cache.get now3 (sanitize_phone_verify phone) =
      some ⟨hc (generate_otp rnd2), now2⟩ ∧
    verify_otp hc now3 st2 (verifyBody phone (generate_otp rnd1)) =
      .ok (invalidResp, st2) ∧
    verify_otp hc now3 st2 (verifyBody phone (generate_otp rnd2)) =
      .ok (validResp,
        { st2 with otp_cache := st2.otp_cache.pop (sanitize_phone_verify phone) }) := by
  obtain ⟨-, hotp1, -⟩ := send_otp_200 hφ h1 hs1
  obtain ⟨-, hotp2, -⟩ := send_otp_200 hφ h2 hs2
  have hk : sanitize_phone_verify phone = sanitize_phone_send phone :=
    (sanitize_send_eq_verify phone).symm
  have httl1 : st1.otp_cache.ttl = 300 := by
    rw [hotp1, TTLCache.ttl_set]; exact httl
  have hget : st2.otp_cache.get now3 (sanitize_phone_send phone) =
      some ⟨hc (generate_otp rnd2), now2⟩ := by
    rw [hotp2, TTLCache.get_set_self, httl1]
    simp [hlive]
  refine ⟨by rw [hk]; exact hget, ?_, ?_⟩
  · rw [verify_otp_verifyBody hc now3 st2 phone _ hφ (generate_otp_ne_empty rnd1), hk,
      hget]
    have hm : (hc (generate_otp rnd1) ==
        (⟨hc (generate_otp rnd2), now2⟩ : OtpEntry).hash) = false := by
      simpa using hneq
    simp [hm]
  · rw [verify_otp_verifyBody hc now3 st2 phone _ hφ (generate_otp_ne_empty rnd2), hk,
      hget]
    simp

/-- A send capability that always succeeds. -/
def demoOkCap : String → String → Except SendErr JVal := fun _ _ => .ok .jnull

/-- The state after a first successful issuance for `+15551234` at time 0. -/
def demoSt1 : ServerState :=
  { otp_cache :=
      { ttl := 300, maxsize := 10000, items := [⟨"+15551234", ⟨"D000001", 0⟩, 0⟩] }
    rate_cache :=
      { ttl := 3600, maxsize := 10000, items := [⟨"+15551234", [0], 0⟩] } }

/-- The state after a second successful issuance at time 40. -/
def demoSt2 : ServerState :=
  { otp_cache :=
      { ttl := 300, maxsize := 10000, items := [⟨"+15551234", ⟨"D000002", 40⟩, 40⟩] }
    rate_cache :=
      { ttl := 3600, maxsize := 10000, items := [⟨"+15551234", [0, 40], 40⟩] } }

/-- The 200 response of a successful send with the demo capability. -/
def sentOkResp : Response :=
  ⟨200, [("status", .jstr "sent"), ("provider_response", .jnull)]⟩

/-- Witness for C3: two successful issuances for `+15551234` at times 0 and
40, then both codes checked at time 100. -/
theorem C3_single_active_otp_witness :
    demoSt2.otp_cache.get 100 (sanitize_phone_verify "+15551234") =
      some ⟨demoHash (generate_otp 2), 40⟩ ∧
    verify_otp demoHash 100 demoSt2 (verifyBody "+15551234" (generate_otp 1)) =
      .ok (invalidResp, demoSt2) ∧
    verify_otp demoHash 100 demoSt2 (verifyBody "+15551234" (generate_otp 2)) =
      .ok (validResp,
        { demoSt2 with
          otp_cache := demoSt2.otp_cache.pop (sanitize_phone_verify "+15551234") }) :=
  C3_single_active_otp demoHash demoOkCap demoOkCap 0 40 100 1 2
    initState demoSt1 demoSt2 sentOkResp sentOkResp "+15551234"
    (by decide) (by rfl) (by rfl) (by rfl) (by rfl) (by rfl) (by decide) (by decide)

/-! ### Rate limiter vs. its spec -/

/-- `can_send_otp` refines `tryAcquire_spec`: the code's early `if not entry`
shortcut and the combined guard compute exactly the spec's prune / cooldown /
quota / append order, with denial leaving the rate cache untouched. -/
theorem can_send_eq_spec (now : Nat) (rc : TTLCache (List Nat)) (phone : String) :
    can_send_otp now rc phone =
      match tryAcquire_spec now ((rc.get now phone).getD []) with
      | .denied r => ((false, some r), rc)
      | .allowed h => ((true, none), rc.set now phone h) := by
  unfold can_send_otp tryAcquire_spec
  cases hg : rc.get now phone with
  | none => simp
  | some entry =>
    cases entry with
    | nil => simp
    | cons a l =>
      simp only [Option.getD_some, List.isEmpty_cons, Bool.false_eq_true, if_false]
      generalize hpdef : (a :: l).filter (fun t => now - t ≤ 3600) = pruned
      cases hl : pruned.getLast? with
      | none =>
        have hpe : pruned = [] := List.getLast?_eq_none_iff.mp hl
        subst hpe
        simp
      | some last =>
        have hne : pruned.isEmpty = false := by
          cases hq : pruned with
          | nil => rw [hq] at hl; simp at hl
          | cons b m => simp
        have hld : pruned.getLastD 0 = last := by
          rw [List.getLastD_eq_getLast?, hl]; rfl
        by_cases hcool : now - last < 30
        · simp [hne, hld, hl, hcool]
        · by_cases hq5 : pruned.length ≥ 5
          · simp [hne, hld, hl, hcool, hq5]
          · simp [hne, hld, hl, hcool, hq5]

/-- **C4** Rate-limit acquisition order and denial frame: the code's rate
check equals the spec's `tryAcquire` evaluated in order (prune, cooldown,
quota, append-and-allow; denial leaves the rate cache untouched), and a
denied send request is answered 429 with the denial reason and the entire
server state — OTP store included — unchanged. -/
theorem C4_rate_limit_order (hc : String → String)
    (cap : String → String → Except SendErr JVal) (now rnd : Nat)
    (st : ServerState) (rc : TTLCache (List Nat)) (phone reason : String)
    (hφ : phone ≠ "")
    (hden : tryAcquire_spec now
        ((st.rate_cache.get now (sanitize_phone_send phone)).getD []) =
      .denied reason) :
    (can_send_otp now rc phone =
      match tryAcquire_spec now ((rc.get now phone).getD []) with
      | .denied r => ((false, some r), rc)
      | .allowed h => ((true, none), rc.set now phone h)) ∧
    send_otp hc cap now rnd st (sendBody phone) =
      .ok (⟨429, [("error", .jstr reason)]⟩, st) := by
  refine ⟨can_send_eq_spec now rc phone, ?_⟩
  rw [send_otp_sendBody hc cap now rnd st phone hφ]
  have heq := can_send_eq_spec now st.rate_cache (sanitize_phone_send phone)
  rw [hden] at heq
  rw [heq]
  simp

/-- A state whose rate store remembers an issuance for `+15551234` at
time 100. -/
def demoRateState : ServerState :=
  { otp_cache := { ttl := 300, maxsize := 10000, items := [] }
    rate_cache := { ttl := 3600, maxsize := 10000, items := [⟨"+15551234", [100], 100⟩] } }

/-- Witness for C4: a second request 10 seconds after the first is denied
with the cooldown reason and changes nothing. -/
theorem C4_rate_limit_order_witness :
    (can_send_otp 110 demoRateState.rate_cache "+15551234" =
      match tryAcquire_spec 110
          ((demoRateState.rate_cache.get 110 "+15551234").getD []) with
      | .denied r => ((false, some r), demoRateState.rate_cache)
      | .allowed h => ((true, none), demoRateState.rate_cache.set 110 "+15551234" h)) ∧
    send_otp demoHash demoOkCap 110 7 demoRateState (sendBody "+15551234") =
      .ok (⟨429, [("error", .jstr cooldownMsg)]⟩, demoRateState) :=
  C4_rate_limit_order demoHash demoOkCap 110 7 demoRateState
    demoRateState.rate_cache "+15551234" cooldownMsg (by decide) (by decide)

/-! ### Verify requests never refresh or create OTP records -/

/-- A successful `verify_otp` call leaves the rate store alone, keeps the
OTP store's parameters, and only ever removes OTP entries. -/
theorem verify_otp_state {hc : String → String} {now : Nat} {st st' : ServerState}
    {body : Option (List (String × JVal))} {r : Response}
    (h : verify_otp hc now st body = .ok (r, st')) :
    st'.rate_cache = st.rate_cache ∧
    st'.otp_cache.ttl = st.otp_cache.ttl ∧
    st'.otp_cache.maxsize = st.otp_cache.maxsize ∧
    (∀ e ∈ st'.otp_cache.items, e ∈ st.otp_cache.items) ∧
    st'.otp_cache.items.length ≤ st.otp_cache.items.length := by
  unfold verify_otp at h
  by_cases hif :
      (!truthy (jget (body.getD []) "phone") || !truthy (jget (body.getD []) "code")) = true
  · rw [if_pos hif] at h
    obtain ⟨-, hst⟩ := by simpa using h
    subst hst
    exact ⟨rfl, rfl, rfl, fun e he => he, Nat.le_refl _⟩
  · rw [if_neg hif] at h
    cases hp : jget (body.getD []) "phone" with
    | none => rw [hp] at h; exact Except.noConfusion h
    | some v =>
      rw [hp] at h
      cases v with
      | jnull => exact Except.noConfusion h
      | jbool b => exact Except.noConfusion h
      | jnum n => exact Except.noConfusion h
      | jstr phone =>
        dsimp only at h
        cases hg : st.otp_cache.get now (sanitize_phone_verify phone) with
        | none =>
          rw [hg] at h
          obtain ⟨-, hst⟩ := by simpa using h
          subst hst
          exact ⟨rfl, rfl, rfl, fun e he => he, Nat.le_refl _⟩
        | some entry =>
          rw [hg] at h
          cases hcj : jget (body.getD []) "code" with
          | none => rw [hcj] at h; exact Except.noConfusion h
          | some w =>
            rw [hcj] at h
            cases w with
            | jnull => exact Except.noConfusion h
            | jbool b => exact Except.noConfusion h
            | jnum n => exact Except.noConfusion h
            | jstr code =>
              dsimp only at h
              by_cases hm : (hc code == entry.hash) = true
              · rw [if_pos hm] at h
                obtain ⟨-, hst⟩ := by simpa using h
                subst hst
                exact ⟨rfl, rfl, rfl, fun e he => TTLCache.mem_pop_items he,
                  List.length_filter_le _ _⟩
              · rw [if_neg hm] at h
                obtain ⟨-, hst⟩ := by simpa using h
                subst hst
                exact ⟨rfl, rfl, rfl, fun e he => he, Nat.le_refl _⟩

/-- Serve a list of verification requests (instant and body each). -/
def runVerifies (hc : String → String) (st : ServerState)
    (qs : List (Nat × Option (List (String × JVal)))) : ServerState :=
  qs.foldl (fun s q => stepReq hc s (.verify q.1 q.2)) st

/-- One verify step preserves the rate store, the OTP parameters, and only
shrinks the OTP entries. -/
theorem stepReq_verify_props (hc : String → String) (st : ServerState)
    (t : Nat) (b : Option (List (String × JVal))) :
    (stepReq hc st (.verify t b)).rate_cache = st.rate_cache ∧
    (stepReq hc st (.verify t b)).otp_cache.ttl = st.otp_cache.ttl ∧
    (stepReq hc st (.verify t b)).otp_cache.maxsize = st.otp_cache.maxsize ∧
    (∀ e ∈ (stepReq hc st (.verify t b)).otp_cache.items, e ∈ st.otp_cache.items) ∧
    (stepReq hc st (.verify t b)).otp_cache.items.length ≤ st.otp_cache.items.length := by
  unfold stepReq
  dsimp only
  cases hv : verify_otp hc t st b with
  | ok pr =>
    rcases pr with ⟨r, st2⟩
    obtain ⟨h1, h2, h3, h4, h5⟩ := verify_otp_state hv
    exact ⟨h1, h2, h3, h4, h5⟩
  | error e => exact ⟨rfl, rfl, rfl, fun e he => he, Nat.le_refl _⟩

/-- All OTP entries under a key were inserted no later than `T`. -/
def OtpKeyBound (st : ServerState) (k : String) (T : Nat) : Prop :=
  ∀ e ∈ st.otp_cache.items, e.key = k → e.insertedAt ≤ T

/-- Any interleaving of verification attempts keeps the insertion-time bound
and the ttl. -/
theorem runVerifies_keyBound (hc : String → String) {k : String} {T : Nat}
    (qs : List (Nat × Option (List (String × JVal)))) :
    ∀ st : ServerState, OtpKeyBound st k T → st.otp_cache.ttl = 300 →
      OtpKeyBound (runVerifies hc st qs) k T ∧
        (runVerifies hc st qs).otp_cache.ttl = 300 := by
  induction qs with
  | nil => exact fun st hb ht => ⟨hb, ht⟩
  | cons q qs ih =>
    intro st hb ht
    obtain ⟨-, h2, -, h4, -⟩ := stepReq_verify_props hc st q.1 q.2
    exact ih (stepReq hc st (.verify q.1 q.2))
      (fun e he hk => hb e (h4 e he) hk) (by rw [h2]; exact ht)

/-- **C6** Expiry: a code issued at time `now` is unverifiable at any instant
from `now + 300` on — whatever (and however many) verification attempts hit
the store in between — because the record's insertion time never advances
and `get` refuses entries aged `ttl` or more. -/
theorem C6_expiry (hc : String → String)
    (cap : String → String → Except SendErr JVal) (now rnd now' : Nat)
    (st0 st1 : ServerState) (r : Response) (phone code : String)
    (qs : List (Nat × Option (List (String × JVal))))
    (hφ : phone ≠ "") (hcd : code ≠ "")
    (httl : st0.otp_cache.ttl = 300)
    (h1 : send_otp hc cap now rnd st0 (sendBody phone) = .ok (r, st1))
    (hs : r.status = 200)
    (hexp : now + 300 ≤ now') :
    verify_otp hc now' (runVerifies hc st1 qs) (verifyBody phone code) =
      .ok (notFoundResp, runVerifies hc st1 qs) := by
  obtain ⟨-, hotp1, -⟩ := send_otp_200 hφ h1 hs
  have hb1 : OtpKeyBound st1 (sanitize_phone_send phone) now := by
    intro e he hk
    rw [hotp1] at he
    rcases TTLCache.mem_set_items he with h | ⟨-, hne, -⟩
    · rw [h]
    · exact absurd hk hne
  have httl1 : st1.otp_cache.ttl = 300 := by rw [hotp1, TTLCache.ttl_set]; exact httl
  obtain ⟨hb2, httl2⟩ := runVerifies_keyBound hc qs st1 hb1 httl1
  have hget : (runVerifies hc st1 qs).otp_cache.get now' (sanitize_phone_send phone) =
      none := by
    apply TTLCache.get_eq_none_of_expired
    intro e he hk
    have := hb2 e he hk
    rw [httl2]
    omega
  rw [verify_otp_verifyBody hc now' _ phone code hφ hcd, sanitize_send_eq_verify phone] at *
  rw [hget]

/-- A wrong-code verification attempt made while the demo OTP is live. -/
def demoLateQs : List (Nat × Option (List (String × JVal))) :=
  [(10, verifyBody "+15551234" "999999")]

/-- Witness for C6: issue at time 0, one wrong attempt at time 10, then the
correct code is refused at time 300 with the not-found answer. -/
theorem C6_expiry_witness :
    verify_otp demoHash 300 (runVerifies demoHash demoSt1 demoLateQs)
        (verifyBody "+15551234" (generate_otp 1)) =
      .ok (notFoundResp, runVerifies demoHash demoSt1 demoLateQs) :=
  C6_expiry demoHash demoOkCap 0 1 300 initState demoSt1 sentOkResp
    "+15551234" (generate_otp 1) demoLateQs (by decide) (by decide) (by rfl)
    (by rfl) (by rfl) (by decide)

/-! ### Rate-history invariant (C5) -/

/-- Every two consecutive stored timestamps are at least 30 s apart. -/
def gapsOk : List Nat → Bool
  | a :: b :: t => decide (a + 30 ≤ b) && gapsOk (b :: t)
  | _ => true

/-- The invariant on one phone's stored history: at most 5 timestamps, each
at least 30 s after the previous one. -/
def rateHistoryOk (l : List Nat) : Bool :=
  decide (l.length ≤ 5) && gapsOk l

theorem gapsOk_iff_chain (l : List Nat) :
    gapsOk l = true ↔ l.Chain' (fun a b => a + 30 ≤ b) := by
  induction l with
  | nil => simp [gapsOk]
  | cons a t ih =>
    cases t with
    | nil => simp [gapsOk]
    | cons b m =>
      rw [List.chain'_cons, ← ih]
      simp [gapsOk]

/-- A fetched value comes from a stored entry. -/
theorem TTLCache.get_some_mem {α : Type} {c : TTLCache α} {now : Nat}
    {k : String} {v : α} (h : c.get now k = some v) :
    ∃ e ∈ c.items, e.val = v := by
  unfold TTLCache.get at h
  cases hf : c.items.find? (fun e => e.key == k) with
  | none => rw [hf] at h; exact Option.noConfusion h
  | some e =>
    rw [hf] at h
    dsimp only at h
    by_cases hl : c.live now e = true
    · rw [if_pos hl] at h
      exact ⟨e, List.mem_of_find?_eq_some hf, Option.some.inj h⟩
    · rw [if_neg hl] at h
      exact Option.noConfusion h

/-- The relation "at least 30 later" is transitive (weakly). -/
instance : IsTrans Nat (fun a b => a + 30 ≤ b) :=
  ⟨fun a b c hab hbc => by omega⟩

/-- The rate limiter preserves the per-phone history invariant, whatever the
key and instant. -/
theorem can_send_rate_inv (now : Nat) (rc : TTLCache (List Nat)) (phone : String)
    (h : ∀ e ∈ rc.items, rateHistoryOk e.val = true) :
    ∀ e ∈ ((can_send_otp now rc phone).2).items, rateHistoryOk e.val = true := by
  have hsingle : rateHistoryOk [now] = true := by simp [rateHistoryOk, gapsOk]
  have hset1 : ∀ e ∈ (rc.set now phone [now]).items, rateHistoryOk e.val = true := by
    intro e he
    rcases TTLCache.mem_set_items he with hfresh | ⟨hold, -, -⟩
    · rw [hfresh]; exact hsingle
    · exact h e hold
  unfold can_send_otp
  cases hg : rc.get now phone with
  | none => exact hset1
  | some entry =>
    dsimp only
    by_cases hie : entry.isEmpty = true
    · rw [if_pos hie]; exact hset1
    · rw [if_neg hie]
      by_cases hcool : (!(entry.filter (fun t => now - t ≤ 3600)).isEmpty
          && now - (entry.filter (fun t => now - t ≤ 3600)).getLastD 0 < 30) = true
      · rw [if_pos hcool]; exact h
      · rw [if_neg hcool]
        by_cases hq : ((entry.filter (fun t => now - t ≤ 3600)).length ≥ 5)
        · rw [if_pos hq]; exact h
        · rw [if_neg hq]
          intro e he
          rcases TTLCache.mem_set_items he with hfresh | ⟨hold, -, -⟩
          · rw [hfresh]
            obtain ⟨e0, he0, hv0⟩ := TTLCache.get_some_mem hg
            have hok : rateHistoryOk entry = true := hv0 ▸ h e0 he0
            have hchain : entry.Chain' (fun a b => a + 30 ≤ b) :=
              (gapsOk_iff_chain entry).mp ((Bool.and_eq_true _ _).mp hok).2
            have hpchain : (entry.filter (fun t => now - t ≤ 3600)).Chain'
                (fun a b => a + 30 ≤ b) :=
              List.Chain'.sublist hchain (List.filter_sublist entry)
            have hlast : ∀ x ∈ (entry.filter (fun t => now - t ≤ 3600)).getLast?,
                x + 30 ≤ now := by
              intro x hx
              rw [Option.mem_def] at hx
              have hne : (entry.filter (fun t => now - t ≤ 3600)).isEmpty = false := by
                cases hq2 : entry.filter (fun t => now - t ≤ 3600) with
                | nil => rw [hq2] at hx; simp at hx
                | cons b m => simp
              have hld : (entry.filter (fun t => now - t ≤ 3600)).getLastD 0 = x := by
                rw [List.getLastD_eq_getLast?, hx]
                rfl
              rw [hne, hld] at hcool
              have hnc : ¬ (now - x < 30) := by simpa using hcool
              omega
            have happ : ((entry.filter (fun t => now - t ≤ 3600)) ++ [now]).Chain'
                (fun a b => a + 30 ≤ b) := by
              rw [List.chain'_append]
              refine ⟨hpchain, List.chain'_singleton now, ?_⟩
              intro x hx y hy
              simp only [List.head?_cons, Option.mem_def, Option.some.injEq] at hy
              rw [← hy]
              exact hlast x hx
            have hlen : ((entry.filter (fun t => now - t ≤ 3600)) ++ [now]).length ≤ 5 := by
              simp only [List.length_append, List.length_singleton]
              omega
            show rateHistoryOk ((entry.filter (fun t => now - t ≤ 3600)) ++ [now]) = true
            unfold rateHistoryOk
            rw [decide_eq_true hlen, (gapsOk_iff_chain _).mpr happ]
            rfl
          · exact h e hold

/-- A send request only changes the rate store through `can_send_otp`. -/
theorem send_otp_rate {hc : String → String}
    {cap : String → String → Except SendErr JVal} {now rnd : Nat}
    {st st' : ServerState} {body : Option (List (String × JVal))} {r : Response}
    (h : send_otp hc cap now rnd st body = .ok (r, st')) :
    st'.rate_cache = st.rate_cache ∨
    ∃ k, st'.rate_cache = (can_send_otp now st.rate_cache k).2 := by
  unfold send_otp at h
  by_cases hif : (!truthy (jget (body.getD []) "phone")) = true
  · rw [if_pos hif] at h
    obtain ⟨-, hst⟩ := by simpa using h
    subst hst
    left; rfl
  · rw [if_neg hif] at h
    cases hp : jget (body.getD []) "phone" with
    | none => rw [hp] at h; exact Except.noConfusion h
    | some v =>
      rw [hp] at h
      cases v with
      | jnull => exact Except.noConfusion h
      | jbool b => exact Except.noConfusion h
      | jnum n => exact Except.noConfusion h
      | jstr phone =>
        dsimp only at h
        right
        refine ⟨sanitize_phone_send phone, ?_⟩
        rcases hcs : can_send_otp now st.rate_cache (sanitize_phone_send phone) with
          ⟨⟨ok, msg⟩, rate'⟩
        rw [hcs] at h
        dsimp only at h
        cases ok with
        | false =>
          simp only [Bool.not_false, if_true] at h
          obtain ⟨-, hst⟩ := by simpa using h
          subst hst
          rfl
        | true =>
          simp only [Bool.not_true, Bool.false_eq_true, if_false] at h
          cases hcap : cap (sanitize_phone_send phone)
              ("Your FoodApp OTP is " ++ generate_otp rnd ++
                ". It will expire in 5 minutes.") with
          | ok resp =>
            rw [hcap] at h
            obtain ⟨-, hst⟩ := by simpa using h
            subst hst
            rfl
          | error e =>
            rw [hcap] at h
            cases e with
            | httpError d rt =>
              obtain ⟨-, hst⟩ := by simpa using h
              subst hst
              rfl
            | otherError d =>
              obtain ⟨-, hst⟩ := by simpa using h
              subst hst
              rfl

/-- The per-phone rate-history invariant over a whole state. -/
def RateInv (st : ServerState) : Prop :=
  ∀ e ∈ st.rate_cache.items, rateHistoryOk e.val = true

/-- Every request preserves the rate-history invariant. -/
theorem stepReq_rate_inv (hc : String → String) (st : ServerState) (rq : Request)
    (h : RateInv st) : RateInv (stepReq hc st rq) := by
  cases rq with
  | verify t b =>
    obtain ⟨h1, -, -, -, -⟩ := stepReq_verify_props hc st t b
    intro e he
    rw [h1] at he
    exact h e he
  | send now rnd capResult body =>
    unfold stepReq
    dsimp only
    cases hs : send_otp hc (fun _ _ => capResult) now rnd st body with
    | error e => exact h
    | ok pr =>
      rcases pr with ⟨r, st'⟩
      rcases send_otp_rate hs with heq | ⟨k, heq⟩
      · intro e he
        dsimp only [extractState] at he
        rw [heq] at he
        exact h e he
      · intro e he
        dsimp only [extractState] at he
        rw [heq] at he
        exact can_send_rate_inv now st.rate_cache k h e he

/-- The rate-history invariant holds in every reachable state. -/
theorem runReqs_rate_inv (hc : String → String) (reqs : List Request) :
    RateInv (runReqs hc reqs) := by
  have hgen : ∀ st : ServerState, RateInv st →
      RateInv (reqs.foldl (stepReq hc) st) := by
    induction reqs with
    | nil => exact fun st h => h
    | cons rq reqs ih =>
      intro st h
      exact ih (stepReq hc st rq) (stepReq_rate_inv hc st rq h)
  apply hgen
  intro e he
  simp [initState] at he

/-- Five successful issuances for `+15551234`, 31 s apart. -/
def demoQuotaReqs : List Request :=
  [.send 0 1 (.ok .jnull) (sendBody "+15551234"),
   .send 31 2 (.ok .jnull) (sendBody "+15551234"),
   .send 62 3 (.ok .jnull) (sendBody "+15551234"),
   .send 93 4 (.ok .jnull) (sendBody "+15551234"),
   .send 124 5 (.ok .jnull) (sendBody "+15551234")]

/-- The state after those five issuances. -/
def demoQuota5 : ServerState := runReqs demoHash demoQuotaReqs

/-- **C5** Rate-window invariant: in every reachable state each stored
history holds at most 5 timestamps with consecutive gaps of at least 30 s
(so the in-window count never exceeds 5 and the two most recent entries are
at least 30 s apart); and a sixth issuance 31 s after the fifth of five
in-window issuances is denied with the quota reason, mutating nothing. -/
theorem C5_rate_window_invariant (hc : String → String) (st : ServerState)
    (h : Reachable hc st) :
    st.rate_cache.items.all (fun e => rateHistoryOk e.val) = true ∧
    send_otp demoHash demoOkCap 155 6 demoQuota5 (sendBody "+15551234") =
      .ok (⟨429, [("error", .jstr quotaMsg)]⟩, demoQuota5) := by
  constructor
  · obtain ⟨reqs, hr⟩ := h
    rw [← hr, List.all_eq_true]
    exact fun e he => runReqs_rate_inv hc reqs e he
  · rfl

/-- Witness for C5 at the initial state, which is reachable by the empty
request list. -/
theorem C5_rate_window_invariant_witness :
    initState.rate_cache.items.all (fun e => rateHistoryOk e.val) = true ∧
    send_otp demoHash demoOkCap 155 6 demoQuota5 (sendBody "+15551234") =
      .ok (⟨429, [("error", .jstr quotaMsg)]⟩, demoQuota5) :=
  C5_rate_window_invariant demoHash initState ⟨[], rfl⟩

/-! ### Validation behaviour (C8) -/

/-- **C8 counterexample**: a request whose `phone` field is the JSON number
`123` — present and truthy, but not a string — does not get an HTTP 400: the
handler dies with an `AttributeError` at `phone.strip()`, i.e. an internal
exception crosses the request boundary unmapped. -/
theorem C8_validation_counterexample :
    send_otp demoHash demoOkCap 0 0 initState (some [("phone", .jnum 123)]) =
      .error "AttributeError: object has no attribute strip" := rfl

/-- **C8 (amended)** Validation: a request whose `phone` (or, on the verify
path, `code`) field is missing or falsy is answered HTTP 400 with both
stores untouched; but a truthy non-string `phone` makes the send handler
raise an `AttributeError` that leaves the handler unmapped (Flask turns it
into a generic 500 outside the handler). -/
theorem C8_validation_amended (hc : String → String)
    (cap : String → String → Except SendErr JVal) (now rnd : Nat)
    (st : ServerState) (body1 body2 : Option (List (String × JVal))) (n : Int)
    (h1 : truthy (jget (body1.getD []) "phone") = false)
    (h2 : truthy (jget (body2.getD []) "phone") = false ∨
      truthy (jget (body2.getD []) "code") = false)
    (hn : n ≠ 0) :
    send_otp hc cap now rnd st body1 =
      .ok (⟨400, [("error", .jstr "Missing 'phone' in request")]⟩, st) ∧
    verify_otp hc now st body2 =
      .ok (⟨400, [("error", .jstr "Missing 'phone' or 'code'")]⟩, st) ∧
    send_otp hc cap now rnd st (some [("phone", .jnum n)]) =
      .error "AttributeError: object has no attribute strip" := by
  refine ⟨?_, ?_, ?_⟩
  · unfold send_otp
    dsimp only
    rw [h1]
    simp
  · unfold verify_otp
    dsimp only
    rcases h2 with h2 | h2 <;> rw [h2] <;> simp
  · unfold send_otp
    dsimp only
    have hj : jget [("phone", JVal.jnum n)] "phone" = some (.jnum n) := by simp [jget]
    rw [Option.getD_some, hj]
    have ht : truthy (some (.jnum n)) = true := by simp [truthy, hn]
    rw [ht]
    simp

/-- Witness for the amended C8: an absent body on the send path, a body with
no `code` on the verify path, and the number `123` as phone. -/
theorem C8_validation_amended_witness :
    send_otp demoHash demoOkCap 0 0 initState none =
      .ok (⟨400, [("error", .jstr "Missing 'phone' in request")]⟩, initState) ∧
    verify_otp demoHash 0 initState (some [("phone", .jstr "+15551234")]) =
      .ok (⟨400, [("error", .jstr "Missing 'phone' or 'code'")]⟩, initState) ∧
    send_otp demoHash demoOkCap 0 0 initState (some [("phone", .jnum 123)]) =
      .error "AttributeError: object has no attribute strip" :=
  C8_validation_amended demoHash demoOkCap 0 0 initState none
    (some [("phone", .jstr "+15551234")]) 123 (by decide) (by decide) (by decide)

/-! ### Capacity invariant (C10) -/

/-- `set` respects the capacity bound. -/
theorem TTLCache.length_set_le {α : Type} (c : TTLCache α) (now : Nat)
    (k : String) (v : α) (_hlen : c.items.length ≤ c.maxsize)
    (hm : 1 ≤ c.maxsize) : (c.set now k v).items.length ≤ c.maxsize := by
  show (TTLCache.evictOld _ c.maxsize ++ [(⟨k, v, now⟩ : CEntry α)]).length ≤ c.maxsize
  rw [List.length_append, TTLCache.evictOld_eq_drop, List.length_drop]
  have h1 : ((c.items.filter (fun e => c.live now e)).filter
      (fun e => !(e.key == k))).length ≤ c.items.length :=
    le_trans (List.length_filter_le _ _) (List.length_filter_le _ _)
  simp only [List.length_singleton]
  omega

/-- `pop` never grows a cache. -/
theorem TTLCache.length_pop_le {α : Type} (c : TTLCache α) (k : String) :
    (c.pop k).items.length ≤ c.items.length :=
  List.length_filter_le _ _

/-- A send request changes the OTP store only by a `set`, possibly followed
by a `pop` of the same key. -/
theorem send_otp_otp {hc : String → String}
    {cap : String → String → Except SendErr JVal} {now rnd : Nat}
    {st st' : ServerState} {body : Option (List (String × JVal))} {r : Response}
    (h : send_otp hc cap now rnd st body = .ok (r, st')) :
    st'.otp_cache = st.otp_cache ∨
    (∃ k v, st'.otp_cache = st.otp_cache.set now k v) ∨
    (∃ k v, st'.otp_cache = (st.otp_cache.set now k v).pop k) := by
  unfold send_otp at h
  by_cases hif : (!truthy (jget (body.getD []) "phone")) = true
  · rw [if_pos hif] at h
    obtain ⟨-, hst⟩ := by simpa using h
    subst hst
    left; rfl
  · rw [if_neg hif] at h
    cases hp : jget (body.getD []) "phone" with
    | none => rw [hp] at h; exact Except.noConfusion h
    | some v =>
      rw [hp] at h
      cases v with
      | jnull => exact Except.noConfusion h
      | jbool b => exact Except.noConfusion h
      | jnum n => exact Except.noConfusion h
      | jstr phone =>
        dsimp only at h
        rcases hcs : can_send_otp now st.rate_cache (sanitize_phone_send phone) with
          ⟨⟨ok, msg⟩, rate'⟩
        rw [hcs] at h
        dsimp only at h
        cases ok with
        | false =>
          simp only [Bool.not_false, if_true] at h
          obtain ⟨-, hst⟩ := by simpa using h
          subst hst
          left; rfl
        | true =>
          simp only [Bool.not_true, Bool.false_eq_true, if_false] at h
          cases hcap : cap (sanitize_phone_send phone)
              ("Your FoodApp OTP is " ++ generate_otp rnd ++
                ". It will expire in 5 minutes.") with
          | ok resp =>
            rw [hcap] at h
            obtain ⟨-, hst⟩ := by simpa using h
            subst hst
            right; left
            exact ⟨_, _, rfl⟩
          | error e =>
            rw [hcap] at h
            cases e with
            | httpError d rt =>
              obtain ⟨-, hst⟩ := by simpa using h
              subst hst
              right; right
              exact ⟨_, _, rfl⟩
            | otherError d =>
              obtain ⟨-, hst⟩ := by simpa using h
              subst hst
              right; right
              exact ⟨_, _, rfl⟩

/-- Both stores stay within their `maxsize = 10000` bound. -/
def CapInv (st : ServerState) : Prop :=
  st.otp_cache.maxsize = 10000 ∧ st.rate_cache.maxsize = 10000 ∧
  st.otp_cache.items.length ≤ 10000 ∧ st.rate_cache.items.length ≤ 10000

/-- The rate limiter respects the capacity bound. -/
theorem can_send_cap (now : Nat) (rc : TTLCache (List Nat)) (phone : String)
    (hm : rc.maxsize = 10000) (hlen : rc.items.length ≤ 10000) :
    ((can_send_otp now rc phone).2).maxsize = 10000 ∧
    ((can_send_otp now rc phone).2).items.length ≤ 10000 := by
  have hset : ∀ v : List Nat, (rc.set now phone v).maxsize = 10000 ∧
      (rc.set now phone v).items.length ≤ 10000 := by
    intro v
    refine ⟨by rw [TTLCache.maxsize_set]; exact hm, ?_⟩
    have := TTLCache.length_set_le rc now phone v (by omega) (by omega)
    omega
  unfold can_send_otp
  cases hg : rc.get now phone with
  | none => exact hset [now]
  | some entry =>
    dsimp only
    by_cases hie : entry.isEmpty = true
    · rw [if_pos hie]; exact hset [now]
    · rw [if_neg hie]
      by_cases hcool : (!(entry.filter (fun t => now - t ≤ 3600)).isEmpty
          && now - (entry.filter (fun t => now - t ≤ 3600)).getLastD 0 < 30) = true
      · rw [if_pos hcool]; exact ⟨hm, hlen⟩
      · rw [if_neg hcool]
        by_cases hq : ((entry.filter (fun t => now - t ≤ 3600)).length ≥ 5)
        · rw [if_pos hq]; exact ⟨hm, hlen⟩
        · rw [if_neg hq]; exact hset _

/-- Every request preserves the capacity bound of both stores. -/
theorem stepReq_cap (hc : String → String) (st : ServerState) (rq : Request)
    (h : CapInv st) : CapInv (stepReq hc st rq) := by
  obtain ⟨hm1, hm2, hl1, hl2⟩ := h
  cases rq with
  | verify t b =>
    obtain ⟨h1, -, h3, -, h5⟩ := stepReq_verify_props hc st t b
    exact ⟨by rw [h3]; exact hm1, by rw [h1]; exact hm2,
      by omega, by rw [h1]; exact hl2⟩
  | send now rnd capResult body =>
    unfold stepReq
    dsimp only
    cases hs : send_otp hc (fun _ _ => capResult) now rnd st body with
    | error e => exact ⟨hm1, hm2, hl1, hl2⟩
    | ok pr =>
      rcases pr with ⟨r, st'⟩
      have hotp : st'.otp_cache.maxsize = 10000 ∧ st'.otp_cache.items.length ≤ 10000 := by
        rcases send_otp_otp hs with heq | ⟨k, v, heq⟩ | ⟨k, v, heq⟩
        · rw [heq]; exact ⟨hm1, hl1⟩
        · rw [heq]
          refine ⟨by rw [TTLCache.maxsize_set]; exact hm1, ?_⟩
          have := TTLCache.length_set_le st.otp_cache now k v (by omega) (by omega)
          omega
        · rw [heq]
          refine ⟨by rw [TTLCache.maxsize_pop, TTLCache.maxsize_set]; exact hm1, ?_⟩
          have hp := TTLCache.length_pop_le (st.otp_cache.set now k v) k
          have hs2 := TTLCache.length_set_le st.otp_cache now k v (by omega) (by omega)
          omega
      have hrate : st'.rate_cache.maxsize = 10000 ∧
          st'.rate_cache.items.length ≤ 10000 := by
        rcases send_otp_rate hs with heq | ⟨k, heq⟩
        · rw [heq]; exact ⟨hm2, hl2⟩
        · rw [heq]
          exact can_send_cap now st.rate_cache k hm2 hl2
      exact ⟨hotp.1, hrate.1, hotp.2, hrate.2⟩

/-- The capacity bound holds in every reachable state. -/
theorem runReqs_cap (hc : String → String) (reqs : List Request) :
    CapInv (runReqs hc reqs) := by
  have hgen : ∀ st : ServerState, CapInv st → CapInv (reqs.foldl (stepReq hc) st) := by
    induction reqs with
    | nil => exact fun st h => h
    | cons rq reqs ih =>
      intro st h
      exact ih (stepReq hc st rq) (stepReq_cap hc st rq h)
  exact hgen initState ⟨rfl, rfl, by simp [initState], by simp [initState]⟩

/-- Distinct demo phone identifiers, all `+`-prefixed so sanitization keeps
them verbatim. -/
def demoPhone (i : Nat) : String := ⟨'+' :: List.replicate i 'x'⟩

theorem demoPhone_ne_empty (i : Nat) : demoPhone i ≠ "" := by
  intro h
  have hd := congrArg String.data h
  simp [demoPhone] at hd

theorem demoPhone_ne {i j : Nat} (h : i ≠ j) : demoPhone i ≠ demoPhone j := by
  intro he
  have hl : i + 1 = j + 1 := by
    have := congrArg (fun s => s.data.length) he
    simpa [demoPhone] using this
  omega

theorem sanitize_demoPhone (i : Nat) : sanitize_phone_send (demoPhone i) = demoPhone i := by
  have hs : pyStrip (demoPhone i) = demoPhone i := by
    show String.mk (stripChars (demoPhone i).data) = demoPhone i
    rw [stripChars_of_no_ws, string_mk_data]
    intro c hc
    rcases List.mem_cons.mp hc with h | h
    · subst h; decide
    · rw [List.eq_of_mem_replicate h]; decide
  unfold sanitize_phone_send
  rw [hs]
  have hsw : startsWithPlus (demoPhone i) = true := by
    simp [startsWithPlus, demoPhone]
  rw [hsw]
  simp

/-- `get` misses on any key of the form `demoPhone n` when the cache holds
only entries for indices below `n`. -/
theorem get_none_fresh {α : Type} (f : Nat → CEntry α) (n m tl t : Nat)
    (hkey : ∀ i, (f i).key = demoPhone i) :
    (TTLCache.mk tl 10000 (((List.range n).map f).drop m)).get t (demoPhone n) =
      none := by
  apply TTLCache.get_eq_none_of_no_key
  intro e he
  obtain ⟨i, hi, hie⟩ := List.mem_map.mp (List.mem_of_mem_drop he)
  rw [← hie, hkey i]
  exact demoPhone_ne (Nat.ne_of_lt (List.mem_range.mp hi))

/-- Writing a fresh `demoPhone n` entry at time 0 into the cache produced by
`n` earlier writes appends it and evicts the oldest entry past capacity. -/
theorem set_run_step {α : Type} (f : Nat → CEntry α) (n tl : Nat) (v : α)
    (htl : 0 < tl)
    (hkey : ∀ i, (f i).key = demoPhone i)
    (hins : ∀ i, (f i).insertedAt = 0)
    (hfn : f n = ⟨demoPhone n, v, 0⟩) :
    (TTLCache.mk tl 10000 (((List.range n).map f).drop (n - 10000))).set 0
      (demoPhone n) v =
      TTLCache.mk tl 10000 (((List.range (n + 1)).map f).drop (n + 1 - 10000)) := by
  have hmem : ∀ e ∈ ((List.range n).map f).drop (n - 10000),
      ∃ i, i < n ∧ f i = e := by
    intro e he
    obtain ⟨i, hi, hie⟩ := List.mem_map.mp (List.mem_of_mem_drop he)
    exact ⟨i, List.mem_range.mp hi, hie⟩
  unfold TTLCache.set
  have hlive : (((List.range n).map f).drop (n - 10000)).filter
      (fun e =>
        (TTLCache.mk tl 10000 (((List.range n).map f).drop (n - 10000))).live 0 e) =
      ((List.range n).map f).drop (n - 10000) := by
    rw [List.filter_eq_self]
    intro e he
    obtain ⟨i, -, hie⟩ := hmem e he
    rw [← hie]
    simp [TTLCache.live, hins i, htl]
  have hkeys : ((((List.range n).map f).drop (n - 10000)).filter
      (fun e => !(e.key == demoPhone n))) =
      ((List.range n).map f).drop (n - 10000) := by
    rw [List.filter_eq_self]
    intro e he
    obtain ⟨i, hi, hie⟩ := hmem e he
    rw [← hie, hkey i]
    simpa using demoPhone_ne (Nat.ne_of_lt hi)
  show TTLCache.mk tl 10000 _ = _
  rw [hlive, hkeys, TTLCache.evictOld_eq_drop, List.drop_drop]
  have hlen : (((List.range n).map f).drop (n - 10000)).length = n - (n - 10000) := by
    rw [List.length_drop, List.length_map, List.length_range]
  rw [hlen]
  dsimp only
  have harith : n - 10000 + (n - (n - 10000) + 1 - 10000) = n + 1 - 10000 := by omega
  rw [harith]
  have hsplit : ((List.range (n + 1)).map f).drop (n + 1 - 10000) =
      ((List.range n).map f).drop (n + 1 - 10000) ++ [f n] := by
    rw [List.range_succ, List.map_append]
    rw [List.drop_append_of_le_length]
    · rfl
    · rw [List.length_map, List.length_range]; omega
  rw [hsplit, hfn]

/-- The OTP entry the `i`-th demo send stores. -/
def otpEntryAt (hc : String → String) (i : Nat) : CEntry OtpEntry :=
  ⟨demoPhone i, ⟨hc (generate_otp i), 0⟩, 0⟩

/-- The rate entry the `i`-th demo send stores. -/
def rateEntryAt (i : Nat) : CEntry (List Nat) := ⟨demoPhone i, [0], 0⟩

/-- `n` successful send requests at time 0, one per distinct phone. -/
def evictReqs (n : Nat) : List Request :=
  (List.range n).map (fun i => .send 0 i (.ok .jnull) (sendBody (demoPhone i)))

/-- The server state those sends produce: the last at-most-10000 entries,
in insertion order, in each store. -/
def evictState (hc : String → String) (n : Nat) : ServerState :=
  { otp_cache := TTLCache.mk 300 10000 (((List.range n).map (otpEntryAt hc)).drop (n - 10000))
    rate_cache := TTLCache.mk 3600 10000 (((List.range n).map rateEntryAt).drop (n - 10000)) }

/-- The rate limiter on a phone with no stored history: allow and record. -/
theorem can_send_none (now : Nat) (rc : TTLCache (List Nat)) (k : String)
    (h : rc.get now k = none) :
    can_send_otp now rc k = ((true, none), rc.set now k [now]) := by
  unfold can_send_otp
  rw [h]

/-- Shape of a successful send when the rate limiter allows and the phone is
already sanitized. -/
theorem send_otp_ok_shape (hc : String → String) (resp : JVal) (now rnd : Nat)
    (st : ServerState) (phone : String) (rc' : TTLCache (List Nat))
    (hφ : phone ≠ "") (hsan : sanitize_phone_send phone = phone)
    (hcs : can_send_otp now st.rate_cache phone = ((true, none), rc')) :
    send_otp hc (fun _ _ => Except.ok resp) now rnd st (sendBody phone) =
      .ok (⟨200, [("status", .jstr "sent"), ("provider_response", resp)]⟩,
        { otp_cache := st.otp_cache.set now phone ⟨hc (generate_otp rnd), now⟩
          rate_cache := rc' }) := by
  rw [send_otp_sendBody hc _ now rnd st phone hφ, hsan, hcs]
  dsimp only
  simp only [Bool.not_true, Bool.false_eq_true, if_false]

/-- Characterization of the demo run: each send appends its entry and, once
the stores are full, evicts the oldest phone's entries. -/
theorem runReqs_evict (hc : String → String) (n : Nat) :
    runReqs hc (evictReqs n) = evictState hc n := by
  induction n with
  | zero => rfl
  | succ n ih =>
    have hsplit : evictReqs (n + 1) =
        evictReqs n ++ [.send 0 n (.ok .jnull) (sendBody (demoPhone n))] := by
      unfold evictReqs
      rw [List.range_succ, List.map_append]
      rfl
    have hget : (evictState hc n).rate_cache.get 0 (demoPhone n) = none :=
      get_none_fresh rateEntryAt n (n - 10000) 3600 0 (fun _ => rfl)
    have hcs : can_send_otp 0 (evictState hc n).rate_cache (demoPhone n) =
        ((true, none), (evictState hc n).rate_cache.set 0 (demoPhone n) [0]) :=
      can_send_none 0 (evictState hc n).rate_cache (demoPhone n) hget
    have hotp : (evictState hc n).otp_cache.set 0 (demoPhone n)
          ⟨hc (generate_otp n), 0⟩ =
        TTLCache.mk 300 10000
          (((List.range (n + 1)).map (otpEntryAt hc)).drop (n + 1 - 10000)) :=
      set_run_step (otpEntryAt hc) n 300 _ (by omega) (fun _ => rfl)
        (fun _ => rfl) rfl
    have hrate : (evictState hc n).rate_cache.set 0 (demoPhone n) [0] =
        TTLCache.mk 3600 10000
          (((List.range (n + 1)).map rateEntryAt).drop (n + 1 - 10000)) :=
      set_run_step rateEntryAt n 3600 [0] (by omega) (fun _ => rfl)
        (fun _ => rfl) rfl
    have hsend : send_otp hc (fun _ _ => Except.ok JVal.jnull) 0 n
        (evictState hc n) (sendBody (demoPhone n)) =
        .ok (⟨200, [("status", .jstr "sent"), ("provider_response", .jnull)]⟩,
          evictState hc (n + 1)) := by
      rw [send_otp_ok_shape hc .jnull 0 n (evictState hc n) (demoPhone n) _
        (demoPhone_ne_empty n) (sanitize_demoPhone n) hcs]
      rw [hotp, hrate]
      rfl
    unfold runReqs at ih ⊢
    rw [hsplit, List.foldl_append, ih, List.foldl_cons, List.foldl_nil]
    simp only [stepReq]
    rw [hsend]
    simp only [extractState]

/-- After the first entry is evicted, no stored key is `demoPhone 0`. -/
theorem mem_drop_one_key {α : Type} (f : Nat → CEntry α) (n : Nat)
    (hkey : ∀ i, (f i).key = demoPhone i) :
    ∀ e ∈ (((List.range (n + 1)).map f).drop 1), e.key ≠ demoPhone 0 := by
  intro e he
  rw [List.range_succ_eq_map, List.map_cons, List.drop_succ_cons, List.drop_zero,
    List.map_map] at he
  obtain ⟨j, hj, hje⟩ := List.mem_map.mp he
  rw [← hje]
  show (f (j + 1)).key ≠ demoPhone 0
  rw [hkey]
  exact demoPhone_ne (by omega)

/-- The demo-run OTP store, spelled out. -/
theorem evictState_otp (hc : String → String) (n : Nat) :
    (evictState hc n).otp_cache =
      TTLCache.mk 300 10000
        (((List.range n).map (otpEntryAt hc)).drop (n - 10000)) := rfl

/-- The demo-run rate store, spelled out. -/
theorem evictState_rate (hc : String → String) (n : Nat) :
    (evictState hc n).rate_cache =
      TTLCache.mk 3600 10000
        (((List.range n).map rateEntryAt).drop (n - 10000)) := rfl

/-- `get` misses on a cache literal none of whose entries carry the key. -/
theorem get_eq_none_mk {α : Type} (tl mx : Nat) (items : List (CEntry α))
    (now : Nat) (k : String) (h : ∀ e ∈ items, e.key ≠ k) :
    (TTLCache.mk tl mx items).get now k = none :=
  TTLCache.get_eq_none_of_no_key h

/-- **C10** Implicit capacity bound and eviction: every reachable state keeps
both stores within their 10000-entry capacity; and after 10001 sends for
distinct phones at time 0, the first phone's OTP record and rate history are
gone (both `get`s miss at time 1, far below the 300 s / 3600 s ttls), so
verifying its live, unexpired code answers not-found. -/
theorem C10_capacity_eviction (hc : String → String) (st : ServerState)
    (h : Reachable hc st) :
    (st.otp_cache.maxsize = 10000 ∧ st.rate_cache.maxsize = 10000 ∧
     st.otp_cache.items.length ≤ 10000 ∧ st.rate_cache.items.length ≤ 10000) ∧
    (runReqs demoHash (evictReqs 10001)).otp_cache.get 1 (demoPhone 0) = none ∧
    (runReqs demoHash (evictReqs 10001)).rate_cache.get 1 (demoPhone 0) = none ∧
    verify_otp demoHash 1 (runReqs demoHash (evictReqs 10001))
        (verifyBody (demoPhone 0) (generate_otp 0)) =
      .ok (notFoundResp, runReqs demoHash (evictReqs 10001)) ∧
    1 < (runReqs demoHash (evictReqs 10001)).otp_cache.ttl := by
  have hcap : CapInv st := by
    obtain ⟨reqs, hr⟩ := h
    rw [← hr]
    exact runReqs_cap hc reqs
  have h10 : (10001 : Nat) - 10000 = 1 := by norm_num
  have h11 : (10001 : Nat) = 10000 + 1 := by norm_num
  have hko : ∀ e ∈ ((List.range 10001).map (otpEntryAt demoHash)).drop (10001 - 10000),
      e.key ≠ demoPhone 0 := by
    rw [h10, h11]
    exact mem_drop_one_key (otpEntryAt demoHash) 10000 (fun _ => rfl)
  have hkr : ∀ e ∈ ((List.range 10001).map rateEntryAt).drop (10001 - 10000),
      e.key ≠ demoPhone 0 := by
    rw [h10, h11]
    exact mem_drop_one_key rateEntryAt 10000 (fun _ => rfl)
  have hgo : (runReqs demoHash (evictReqs 10001)).otp_cache.get 1 (demoPhone 0) =
      none := by
    rw [runReqs_evict demoHash 10001, evictState_otp]
    exact get_eq_none_mk 300 10000
      (((List.range 10001).map (otpEntryAt demoHash)).drop (10001 - 10000))
      1 (demoPhone 0) hko
  have hgr : (runReqs demoHash (evictReqs 10001)).rate_cache.get 1 (demoPhone 0) =
      none := by
    rw [runReqs_evict demoHash 10001, evictState_rate]
    exact get_eq_none_mk 3600 10000
      (((List.range 10001).map rateEntryAt).drop (10001 - 10000))
      1 (demoPhone 0) hkr
  refine ⟨⟨hcap.1, hcap.2.1, hcap.2.2.1, hcap.2.2.2⟩, hgo, hgr, ?_, ?_⟩
  · have hsv : sanitize_phone_verify (demoPhone 0) = demoPhone 0 := by
      rw [← sanitize_send_eq_verify]
      exact sanitize_demoPhone 0
    rw [verify_otp_verifyBody demoHash 1 _ (demoPhone 0) (generate_otp 0)
      (demoPhone_ne_empty 0) (generate_otp_ne_empty 0), hsv, hgo]
  · have httl : (runReqs demoHash (evictReqs 10001)).otp_cache.ttl = 300 := by
      rw [runReqs_evict demoHash 10001, evictState_otp]
    rw [httl]
    omega

/-- Witness for C10 at the initial state, reachable by the empty request
list. -/
theorem C10_capacity_eviction_witness :
    (initState.otp_cache.maxsize = 10000 ∧ initState.rate_cache.maxsize = 10000 ∧
     initState.otp_cache.items.length ≤ 10000 ∧
     initState.rate_cache.items.length ≤ 10000) ∧
    (runReqs demoHash (evictReqs 10001)).otp_cache.get 1 (demoPhone 0) = none ∧
    (runReqs demoHash (evictReqs 10001)).rate_cache.get 1 (demoPhone 0) = none ∧
    verify_otp demoHash 1 (runReqs demoHash (evictReqs 10001))
        (verifyBody (demoPhone 0) (generate_otp 0)) =
      .ok (notFoundResp, runReqs demoHash (evictReqs 10001)) ∧
    1 < (runReqs demoHash (evictReqs 10001)).otp_cache.ttl :=
  C10_capacity_eviction demoHash initState ⟨[], rfl⟩
